import Mathlib

/-!
Shallow embedding of the orchestration and artifact-store logic of
`sar_simulator.c` (Open-source-SAR-simulator).

The C store is a singly-linked chain of `matrix` nodes whose head is the
header node created in `main` (name "metadata").  We model the chain as a
`List matrix`; the `next` pointer is the list structure itself.  Buffer
contents of `data` are produced by external DSP kernels and never inspected
by the orchestrator, so a buffer is modelled by its allocated element count
(`Option Nat`, `none` = NULL pointer).  Console input is a `List Char`;
end of input corresponds to the empty list (getchar/scanf report EOF).

External collaborators (chirp_generator, read_radar_file, gbp, write_data,
...) live in other files of the repository and are modelled as an
uninterpreted family `ext : Ev → Store → Store` of store transformers,
with the properties the spec assigns to them taken as hypotheses.
-/

set_option autoImplicit false

namespace SarSim

/-- Modelled from the spec: the artifact node (`struct matrix` declared in
`sar_simulator.h`, which the repository snapshot does not include).  §3 of
the spec: `name` string identifier, `rows`/`cols` non-negative matrix
dimensions, `data` an optionally-absent buffer of complex samples (modelled
by its element count; `none` = NULL), `next` an ownership link to the next
artifact — here the tail of the list the node sits in. -/
structure matrix where
  name : String
  rows : Nat
  cols : Nat
  data : Option Nat
  deriving DecidableEq, Repr

/-- The artifact store: the chain of nodes reachable from the header. -/
abbrev Store := List matrix

/-- The header node built at the top of `main`: `malloc` + `memset 0` +
`strcpy(data->name, "metadata")`. -/
def header : matrix := { name := "metadata", rows := 0, cols := 0, data := none }

/-- The node produced by `malloc(sizeof(matrix))` + `memset(_, 0, _)` in
`get_last_node`: empty-string name, zero dims, NULL data, NULL next. -/
def zeroNode : matrix := { name := "", rows := 0, cols := 0, data := none }

/-- Embeds `get_matrix(data, name)`: NULL store gives NULL; otherwise a linear scan
from the head returning the first node whose name compares equal
(`strcmp == 0`), or NULL when the scan falls off the end. -/
def get_matrix : Store → String → Option matrix
  | [], _ => none
  | m :: rest, name => if m.name = name then some m else get_matrix rest name

/-- Embeds `get_last_node(data)`: walks to the tail, attaches a zero-initialized
node after it and returns (a pointer to) that node.  On a NULL store it
returns NULL without appending.  Here the result is the whole updated
chain; the returned handle is the new last element, and writes through the
handle are modelled by `update_last` below. -/
def get_last_node : Store → Store
  | [] => []
  | [m] => [m, zeroNode]
  | m :: m' :: rest => m :: get_last_node (m' :: rest)

/-- A field assignment through the pointer `get_last_node` returned:
rewrite the tail node of the chain. -/
def update_last (f : matrix → matrix) : Store → Store
  | [] => []
  | [m] => [f m]
  | m :: m' :: rest => m :: update_last f (m' :: rest)

/-- Embeds `build_metadata(data, variables)`: counts the nodes after the header
(`ptr = data->next; while(ptr) elements++;`) and attaches to the header a
buffer of exactly that many complex slots (`data->data = malloc(elements *
sizeof(complex double))`).  The `[]` case is unreachable in `main`, whose
header pointer is never NULL. -/
def build_metadata : Store → Store
  | [] => []
  | h :: t => { h with data := some t.length } :: t

/-! ## Pipeline orchestration -/

/-- The external collaborators `main`, `simulate` and `process_data` call
out to, plus the two final actions of `main`.  `fft_waveform` carries the
name of the waveform whose buffer it transforms. -/
inductive Ev where
  | chirp_generator
  | chirp_matched_generator
  | fft_waveform (wave : String)
  | pulse_compress_signal
  | calculate_compressed_pulse_resolution
  | insert_waveform_in_scene
  | radar_imager
  | read_radar_file
  | cinsnowfilters
  | pulse_compress_image
  | gbp
  | gbp_fft
  | build_metadata_call
  | write_data
  deriving DecidableEq, Repr

/-- A family of external stage behaviors: each invocation takes the store
(and the run context, which we do not model) and leaves a store.  The
kernels live outside this file's source, so they are kept abstract. -/
abbrev Externals := Ev → Store → Store

/-- Result of a run of `main` that terminates normally: the sequence of
external invocations in order, the final store, and whether `write_data`
was reached. -/
structure Outcome where
  trace : List Ev
  store : Store
  wrote : Bool
  deriving DecidableEq, Repr

/-- The initial value of `pc` in `process_data` (`char pc = 0;`). -/
def pc0 : Char := Char.ofNat 0

/-- The yes/no prompt loop of `process_data`:
`do { ret = scanf("%c", &pc); if(pc=='y') break; else if(pc=='n') break; } while(1);`.
`pc` is the current value of the `pc` variable when the loop starts (it is
NOT reset between the two prompts).  A successful read overwrites `pc`; at
end of input `scanf` returns EOF and leaves `pc` untouched, so the loop
exits only if the stale `pc` already holds 'y' or 'n', and otherwise spins
forever — that divergence is the `none` result. -/
def scan_yn : Char → List Char → Option (Char × List Char)
  | pc, [] => if pc = 'y' ∨ pc = 'n' then some (pc, []) else none
  | _, c :: rest => if c = 'y' ∨ c = 'n' then some (c, rest) else scan_yn c rest

/-- One operator-gated optional stage of `process_data`: run the yes/no
loop, then `if (pc == 'y')` invoke the stage once.  Returns the value left
in `pc`, the invocations made, the store, and the unread input. -/
def run_gated (ext : Externals) (ev : Ev) (pc : Char) (input : List Char)
    (s : Store) : Option (Char × List Ev × Store × List Char) :=
  match scan_yn pc input with
  | none => none
  | some (c, rest) =>
    if c = 'y' then some (c, [ev], ext ev s, rest) else some (c, [], s, rest)

/-- Embeds `process_data(data, variables)`: gated CinSnow filtering, then gated
image pulse compression (both sharing the one `pc` variable), then the
unconditional `gbp` and `gbp_fft` calls.  `none` = a prompt loop diverged. -/
def process_data (ext : Externals) (s : Store) (input : List Char) :
    Option (List Ev × Store × List Char) :=
  match run_gated ext Ev.cinsnowfilters pc0 input s with
  | none => none
  | some (pc1, t1, s1, r1) =>
    match run_gated ext Ev.pulse_compress_image pc1 r1 s1 with
    | none => none
    | some (_, t2, s2, r2) =>
      some (t1 ++ t2 ++ [Ev.gbp, Ev.gbp_fft],
            ext Ev.gbp_fft (ext Ev.gbp s2), r2)

/-- Field initialization of the `chirp_fft` node created in `simulate`
(lines 94–99): buffer of `meta_chirp->rows` complex samples, dims copied
from `meta_chirp`, name `"chirp_fft"`. -/
def chirp_fft_init (mc : matrix) (z : matrix) : matrix :=
  { z with data := some mc.rows, rows := mc.rows, cols := mc.cols,
           name := "chirp_fft" }

/-- Field initialization of the `match_fft` node (lines 101–106): buffer of
`meta_match->rows` samples, but dims copied from `meta_chirp` (the source
reads `meta_chirp->rows` / `meta_chirp->cols` there), name `"match_fft"`. -/
def match_fft_init (mc mm : matrix) (z : matrix) : matrix :=
  { z with data := some mm.rows, rows := mc.rows, cols := mc.cols,
           name := "match_fft" }

/-- The two `get_last_node` appends of `simulate` together with the field
assignments made through the returned pointers. -/
def simulate_ffts (mc mm : matrix) (s : Store) : Store :=
  update_last (match_fft_init mc mm)
    (get_last_node (update_last (chirp_fft_init mc) (get_last_node s)))

/-- The invocation sequence `simulate` performs.  `fft_waveform` is called
on raw buffer pointers (lines 108–109), after both nodes exist. -/
def simulateTrace : List Ev :=
  [Ev.chirp_generator, Ev.chirp_matched_generator,
   Ev.fft_waveform "chirp", Ev.fft_waveform "match",
   Ev.pulse_compress_signal, Ev.calculate_compressed_pulse_resolution,
   Ev.insert_waveform_in_scene, Ev.radar_imager]

/-- Embeds `simulate(data, variables)`: the two chirp generators, lookup of
`"chirp"` and `"match"`, creation of the two FFT nodes, the two
`fft_waveform` calls (they write only buffer contents through raw
pointers, so the store shape is unchanged), pulse compression with the
resolution report, scene insertion and radar imaging.  `none` = a lookup
returned NULL and the immediate dereference crashes the run. -/
def simulate (ext : Externals) (s : Store) : Option (List Ev × Store) :=
  let s2 := ext Ev.chirp_matched_generator (ext Ev.chirp_generator s)
  match get_matrix s2 "chirp" with
  | none => none
  | some mc =>
    match get_matrix s2 "match" with
    | none => none
    | some mm =>
      let s3 := simulate_ffts mc mm s2
      let s7 := ext Ev.radar_imager (ext Ev.insert_waveform_in_scene
        (ext Ev.calculate_compressed_pulse_resolution
          (ext Ev.pulse_compress_signal s3)))
      some (simulateTrace, s7)

/-- Whitespace in the sense of `scanf`'s `%s` conversion. -/
def isSpc (c : Char) : Bool :=
  c = ' ' ∨ c = '\n' ∨ c = '\t' ∨ c = '\r' ∨ c = Char.ofNat 11 ∨ c = Char.ofNat 12

/-- Embeds `scanf("%s", ...)`: skip whitespace, then read a maximal non-whitespace
token; EOF (returns EOF, no assignment) iff nothing but whitespace is left. -/
def read_token (input : List Char) : Option (List Char × List Char) :=
  match input.dropWhile isSpc with
  | [] => none
  | c :: rest =>
    some ((c :: rest).takeWhile (fun a => !(isSpc a)),
          (c :: rest).dropWhile (fun a => !(isSpc a)))

/-- The tail of `main` on the paths that finish a flow: `build_metadata`
then `write_data`.  Modelled from the spec for `write_data` (§6: `Persist`
serializes every artifact to the output file and is the orchestrator's
final action): persisting reads the store and does not mutate it. -/
def finalize (tr : List Ev) (s : Store) : Outcome :=
  ⟨tr ++ [Ev.build_metadata_call, Ev.write_data], build_metadata s, true⟩

/-- Embeds `main`, as a function of the external behaviors, the success of
`read_radar_file` (`readOk`; modelled from the spec §4.2/§8 Scenario B: a
failed read aborts the run with the store still header-only, i.e. without
mutating it), and the console input stream.  `some o` is a normal exit
with outcome `o`; `none` means the run does not exit normally (a prompt
loop diverges or a NULL dereference in `simulate` crashes). -/
def runMain (ext : Externals) (readOk : Bool) (input : List Char) :
    Option Outcome :=
  let s0 : Store := [header]
  match input with
  | [] => some ⟨[], s0, false⟩
  | mode :: rest =>
    if mode = 'p' then
      match read_token rest with
      | none => some ⟨[], s0, false⟩
      | some (_, rest2) =>
        if readOk then
          match process_data ext (ext Ev.read_radar_file s0) rest2 with
          | none => none
          | some (t, s2, _) => some (finalize (Ev.read_radar_file :: t) s2)
        else some ⟨[Ev.read_radar_file], s0, false⟩
    else if mode = 's' then
      match simulate ext s0 with
      | none => none
      | some (tSim, s1) =>
        match process_data ext s1 rest with
        | none => none
        | some (t, s2, _) => some (finalize (tSim ++ t) s2)
    else some ⟨[], s0, false⟩

/-! ## A concrete instance of the external collaborators, used to witness
the hypotheses of the theorems below.  The two generators append their
artifact (a length-4 waveform, i.e. a 4×1 matrix, per spec §4.2); every
other collaborator mutates only buffer contents, which the store model
does not record. -/

def chirpNode : matrix := { name := "chirp", rows := 4, cols := 1, data := some 4 }

def matchNode : matrix := { name := "match", rows := 4, cols := 1, data := some 4 }

def extW : Externals
  | Ev.chirp_generator, s => s ++ [chirpNode]
  | Ev.chirp_matched_generator, s => s ++ [matchNode]
  | _, s => s

/-- The outcome of the run of `main` with externals `extW`, a successful
read, mode 's' and toggle answers 'y' then 'n'. -/
def outcomeSYN : Outcome :=
  ⟨[Ev.chirp_generator, Ev.chirp_matched_generator,
    Ev.fft_waveform "chirp", Ev.fft_waveform "match",
    Ev.pulse_compress_signal, Ev.calculate_compressed_pulse_resolution,
    Ev.insert_waveform_in_scene, Ev.radar_imager,
    Ev.cinsnowfilters, Ev.gbp, Ev.gbp_fft,
    Ev.build_metadata_call, Ev.write_data],
   [{ name := "metadata", rows := 0, cols := 0, data := some 4 },
    chirpNode, matchNode,
    { name := "chirp_fft", rows := 4, cols := 1, data := some 4 },
    { name := "match_fft", rows := 4, cols := 1, data := some 4 }],
   true⟩

/-! ## Store lemmas -/

theorem extW_ne_nil (e : Ev) (s : Store) (h : s ≠ []) : extW e s ≠ [] := by
  cases e <;> simp [extW] <;> exact h

@[simp] theorem get_matrix_nil (n : String) : get_matrix [] n = none := rfl

theorem get_matrix_cons (m : matrix) (rest : Store) (n : String) :
    get_matrix (m :: rest) n = if m.name = n then some m else get_matrix rest n := rfl

theorem get_last_node_eq (s : Store) (h : s ≠ []) :
    get_last_node s = s ++ [zeroNode] := by
  induction s with
  | nil => cases h rfl
  | cons m rest ih =>
    cases rest with
    | nil => rfl
    | cons m' rest' =>
      show m :: get_last_node (m' :: rest') = _
      rw [ih (by simp)]
      simp

theorem update_last_append (s : Store) (m : matrix) (f : matrix → matrix) :
    update_last f (s ++ [m]) = s ++ [f m] := by
  induction s with
  | nil => rfl
  | cons a rest ih =>
    cases rest with
    | nil => rfl
    | cons b rest' =>
      show a :: update_last f ((b :: rest') ++ [m]) = _
      rw [ih]
      rfl

/-- Lemma: `get_matrix` finds nothing exactly when no node carries the name. -/
theorem get_matrix_eq_none_iff (s : Store) (n : String) :
    get_matrix s n = none ↔ ∀ m ∈ s, m.name ≠ n := by
  induction s with
  | nil => simp
  | cons a rest ih =>
    rw [get_matrix_cons]
    by_cases h : a.name = n
    · simp [h]
    · simp [h, ih]

/-- A hit of `get_matrix` carries the requested name. -/
theorem get_matrix_name (s : Store) (n : String) (m : matrix)
    (h : get_matrix s n = some m) : m.name = n := by
  induction s with
  | nil => simp at h
  | cons a rest ih =>
    rw [get_matrix_cons] at h
    by_cases ha : a.name = n
    · simp [ha] at h; rw [← h]; exact ha
    · simp [ha] at h; exact ih h

/-- The scan returns the first node in scan order whose name matches. -/
theorem get_matrix_first (s1 : Store) (m : matrix) (s2 : Store) (n : String)
    (h1 : ∀ x ∈ s1, x.name ≠ n) (h2 : m.name = n) :
    get_matrix (s1 ++ m :: s2) n = some m := by
  induction s1 with
  | nil => simp [get_matrix_cons, h2]
  | cons a rest ih =>
    rw [List.cons_append, get_matrix_cons]
    have ha : a.name ≠ n := h1 a (by simp)
    simp only [ha, if_false]
    exact ih (fun x hx => h1 x (by simp [hx]))

/-! ## Helper lemmas -/

theorem update_last_ne_nil (f : matrix → matrix) (s : Store) (h : s ≠ []) :
    update_last f s ≠ [] := by
  cases s with
  | nil => cases h rfl
  | cons m rest => cases rest <;> simp [update_last]

theorem get_last_node_ne_nil (s : Store) (h : s ≠ []) : get_last_node s ≠ [] := by
  rw [get_last_node_eq s h]; simp

theorem simulate_ffts_eq (mc mm : matrix) (s : Store) (h : s ≠ []) :
    simulate_ffts mc mm s =
      s ++ [chirp_fft_init mc zeroNode, match_fft_init mc mm zeroNode] := by
  unfold simulate_ffts
  rw [get_last_node_eq s h, update_last_append,
      get_last_node_eq _ (by simp), update_last_append]
  simp

theorem simulate_ffts_ne_nil (mc mm : matrix) (s : Store) (h : s ≠ []) :
    simulate_ffts mc mm s ≠ [] := by
  rw [simulate_ffts_eq mc mm s h]; simp

/-- The prompt loop consumes exactly the characters before the first 'y'
or 'n' of the input, whatever `pc` held at entry. -/
theorem scan_yn_first (pc : Char) (pre : List Char) (c : Char) (rest : List Char)
    (hpre : ∀ x ∈ pre, x ≠ 'y' ∧ x ≠ 'n') (hc : c = 'y' ∨ c = 'n') :
    scan_yn pc (pre ++ c :: rest) = some (c, rest) := by
  induction pre generalizing pc with
  | nil => simp [scan_yn, hc]
  | cons a pre' ih =>
    have ha := hpre a (by simp)
    show scan_yn pc (a :: (pre' ++ c :: rest)) = _
    rw [scan_yn]
    simp only [ha.1, ha.2, or_self, if_false]
    exact ih a (fun x hx => hpre x (by simp [hx]))

theorem run_gated_inv (ext : Externals) (ev : Ev) (pc : Char) (input : List Char)
    (s : Store) (c : Char) (t : List Ev) (s' : Store) (r : List Char)
    (h : run_gated ext ev pc input s = some (c, t, s', r)) :
    (t = [] ∧ s' = s) ∨ (t = [ev] ∧ s' = ext ev s) := by
  unfold run_gated at h
  split at h
  · exact absurd h (by simp)
  next c' rest heq =>
    by_cases hy : c' = 'y'
    · right
      simp only [hy, if_true, Option.some.injEq, Prod.mk.injEq] at h
      exact ⟨h.2.1.symm, h.2.2.1.symm⟩
    · left
      simp only [hy, if_false, Option.some.injEq, Prod.mk.injEq] at h
      exact ⟨h.2.1.symm, h.2.2.1.symm⟩

theorem process_data_inv (ext : Externals) (hext : ∀ e s, s ≠ [] → ext e s ≠ [])
    (s : Store) (input : List Char) (t : List Ev) (s' : Store) (r : List Char)
    (h : process_data ext s input = some (t, s', r)) (hs : s ≠ []) :
    s' ≠ [] ∧ Ev.build_metadata_call ∉ t ∧ Ev.write_data ∉ t := by
  unfold process_data at h
  split at h
  · exact absurd h (by simp)
  next pc1 t1 s1 r1 h1 =>
    split at h
    · exact absurd h (by simp)
    next pc2 t2 s2 r2 h2 =>
      simp only [Option.some.injEq, Prod.mk.injEq] at h
      obtain ⟨ht, hstore, -⟩ := h
      have hs1 : s1 ≠ [] := by
        rcases run_gated_inv ext _ _ _ _ _ _ _ _ h1 with ⟨-, e⟩ | ⟨-, e⟩
        · rw [e]; exact hs
        · rw [e]; exact hext _ _ hs
      have hs2 : s2 ≠ [] := by
        rcases run_gated_inv ext _ _ _ _ _ _ _ _ h2 with ⟨-, e⟩ | ⟨-, e⟩
        · rw [e]; exact hs1
        · rw [e]; exact hext _ _ hs1
      have ht1 : t1 = [] ∨ t1 = [Ev.cinsnowfilters] := by
        rcases run_gated_inv ext _ _ _ _ _ _ _ _ h1 with ⟨e, -⟩ | ⟨e, -⟩ <;> simp [e]
      have ht2 : t2 = [] ∨ t2 = [Ev.pulse_compress_image] := by
        rcases run_gated_inv ext _ _ _ _ _ _ _ _ h2 with ⟨e, -⟩ | ⟨e, -⟩ <;> simp [e]
      refine ⟨?_, ?_, ?_⟩
      · rw [← hstore]; exact hext _ _ (hext _ _ hs2)
      · rw [← ht]; rcases ht1 with e1 | e1 <;> rcases ht2 with e2 | e2 <;>
          simp [e1, e2]
      · rw [← ht]; rcases ht1 with e1 | e1 <;> rcases ht2 with e2 | e2 <;>
          simp [e1, e2]

theorem simulate_inv (ext : Externals) (hext : ∀ e s, s ≠ [] → ext e s ≠ [])
    (s : Store) (t : List Ev) (s' : Store)
    (h : simulate ext s = some (t, s')) (hs : s ≠ []) :
    s' ≠ [] ∧ t = simulateTrace := by
  unfold simulate at h
  simp only [] at h
  split at h
  · exact absurd h (by simp)
  next mc h1 =>
    split at h
    · exact absurd h (by simp)
    next mm h2 =>
      simp only [Option.some.injEq, Prod.mk.injEq] at h
      refine ⟨?_, h.1.symm⟩
      rw [← h.2]
      exact hext _ _ (hext _ _ (hext _ _ (hext _ _
        (simulate_ffts_ne_nil mc mm _ (hext _ _ (hext _ _ hs))))))

theorem finalize_inv (tr : List Ev) (s : Store)
    (htr : Ev.write_data ∉ tr) (hs : s ≠ []) :
    (finalize tr s).trace.count Ev.write_data = 1 ∧
    (∃ t, (finalize tr s).trace = t ++ [Ev.build_metadata_call, Ev.write_data]) ∧
    ∃ hd tl, (finalize tr s).store = hd :: tl ∧ hd.data = some tl.length := by
  refine ⟨?_, ⟨tr, rfl⟩, ?_⟩
  · show (tr ++ [Ev.build_metadata_call, Ev.write_data]).count Ev.write_data = 1
    rw [List.count_append, List.count_eq_zero_of_not_mem htr]
    rfl
  · cases s with
    | nil => cases hs rfl
    | cons hd tl => exact ⟨{ hd with data := some tl.length }, tl, rfl, rfl⟩

theorem simulate_eq (ext : Externals) (s : Store) (mc mm : matrix)
    (h1 : get_matrix (ext Ev.chirp_matched_generator (ext Ev.chirp_generator s))
      "chirp" = some mc)
    (h2 : get_matrix (ext Ev.chirp_matched_generator (ext Ev.chirp_generator s))
      "match" = some mm) :
    simulate ext s = some (simulateTrace,
      ext Ev.radar_imager (ext Ev.insert_waveform_in_scene
        (ext Ev.calculate_compressed_pulse_resolution
          (ext Ev.pulse_compress_signal (simulate_ffts mc mm
            (ext Ev.chirp_matched_generator (ext Ev.chirp_generator s))))))) := by
  unfold simulate
  simp only []
  rw [h1, h2]

theorem process_data_eq (ext : Externals) (s : Store) (input i2 r : List Char)
    (d q : Char) (hd : scan_yn pc0 input = some (d, i2))
    (hq : scan_yn d i2 = some (q, r)) :
    process_data ext s input =
      some ((if d = 'y' then [Ev.cinsnowfilters] else []) ++
            (if q = 'y' then [Ev.pulse_compress_image] else []) ++
            [Ev.gbp, Ev.gbp_fft],
            ext Ev.gbp_fft (ext Ev.gbp
              (if q = 'y'
               then ext Ev.pulse_compress_image
                 (if d = 'y' then ext Ev.cinsnowfilters s else s)
               else if d = 'y' then ext Ev.cinsnowfilters s else s)), r) := by
  unfold process_data run_gated
  rw [hd]
  by_cases hdy : d = 'y'
  · subst hdy
    simp only [reduceIte]
    rw [hq]
    by_cases hqy : q = 'y'
    · subst hqy; simp
    · simp [hqy]
  · simp only [hdy, reduceIte]
    rw [hq]
    by_cases hqy : q = 'y'
    · subst hqy; simp
    · simp [hqy]

theorem runMain_s_eq (ext : Externals) (readOk : Bool) (i1 : List Char)
    (tSim : List Ev) (s1 : Store) (t : List Ev) (s2 : Store) (r : List Char)
    (hsim : simulate ext [header] = some (tSim, s1))
    (hpd : process_data ext s1 i1 = some (t, s2, r)) :
    runMain ext readOk ('s' :: i1) = some (finalize (tSim ++ t) s2) := by
  unfold runMain
  simp only []
  rw [if_neg (show ¬ ('s' = 'p') from by decide)]
  simp only [if_true]
  rw [hsim]
  simp only []
  rw [hpd]

/-! ## Claim theorems -/

/-- C1: `get_matrix` performs a linear scan from the head and returns the
first artifact in scan order whose name equals the given name; when no
artifact matches (in particular on the empty/NULL store) it returns the
not-found result `none`, never an artifact with a different name; with
duplicate names the first-created (earliest in scan order) artifact wins. -/
theorem get_matrix_linear_scan_correct (n : String) :
    (∀ s : Store, get_matrix s n = none ↔ ∀ m ∈ s, m.name ≠ n) ∧
    (∀ (s : Store) (m : matrix), get_matrix s n = some m → m.name = n) ∧
    (∀ (s1 : Store) (m : matrix) (s2 : Store),
      (∀ x ∈ s1, x.name ≠ n) → m.name = n →
      get_matrix (s1 ++ m :: s2) n = some m) :=
  ⟨fun s => get_matrix_eq_none_iff s n,
   fun s m => get_matrix_name s n m,
   fun s1 m s2 => get_matrix_first s1 m s2 n⟩

theorem get_matrix_linear_scan_correct_witness :
    get_matrix [header, chirpNode, { chirpNode with rows := 9 }] "chirp"
      = some chirpNode :=
  (get_matrix_linear_scan_correct "chirp").2.2 [header] chirpNode
    [{ chirpNode with rows := 9 }] (by decide) (by decide)

/-- C2: on a store of pairwise-distinct names, a `get_last_node` append
followed by setting the new node's name to a fresh `n` (distinct from every
existing name, the header's included) makes `get_matrix` on `n` return
exactly the just-appended node. -/
theorem append_set_name_then_lookup (s : Store) (n : String) (hne : s ≠ [])
    (_hdist : s.Pairwise (fun a b => a.name ≠ b.name))
    (hfresh : ∀ m ∈ s, m.name ≠ n) :
    update_last (fun m => { m with name := n }) (get_last_node s)
        = s ++ [{ zeroNode with name := n }] ∧
    get_matrix (update_last (fun m => { m with name := n }) (get_last_node s)) n
        = some { zeroNode with name := n } := by
  have h1 : update_last (fun m => { m with name := n }) (get_last_node s)
      = s ++ [{ zeroNode with name := n }] := by
    rw [get_last_node_eq s hne, update_last_append]
  refine ⟨h1, ?_⟩
  rw [h1]
  exact get_matrix_first s _ [] n hfresh rfl

theorem append_set_name_then_lookup_witness :
    get_matrix
      (update_last (fun m => { m with name := "scene" })
        (get_last_node [header, chirpNode])) "scene"
      = some { zeroNode with name := "scene" } :=
  (append_set_name_then_lookup [header, chirpNode] "scene" (by decide)
    (by decide) (by decide)).2

/-- C10: on a non-null store, `get_last_node` appends exactly one node at
the tail and returns it; the new node is zero-initialized (empty name, zero
dims, NULL data; its `next`, the tail after it, is empty), every previously
existing node is kept unchanged in order, and the length grows by one. -/
theorem get_last_node_appends_one_zero_node (s : Store) (h : s ≠ []) :
    get_last_node s = s ++ [zeroNode] ∧
    (get_last_node s).length = s.length + 1 ∧
    (get_last_node s).getLast? = some zeroNode ∧
    zeroNode.name = "" ∧ zeroNode.rows = 0 ∧ zeroNode.cols = 0 ∧
    zeroNode.data = none := by
  refine ⟨get_last_node_eq s h, ?_, ?_, rfl, rfl, rfl, rfl⟩
  · rw [get_last_node_eq s h]; simp
  · rw [get_last_node_eq s h]; simp

theorem get_last_node_appends_one_zero_node_witness :
    get_last_node [header] = [header] ++ [zeroNode] :=
  (get_last_node_appends_one_zero_node [header] (by decide)).1

/-- C5: a yes/no prompt loop fed input whose first 'y'/'n' occurrence is
`c` exits exactly there, discarding the earlier characters without running
the gated stage; the stage then runs exactly once if `c = 'y'` and not at
all if `c = 'n'`, and the loop never exits on any other character.  `pc` is
the prompt variable's value at entry (0 at the first prompt, the previous
answer at the second), `ev` the gated stage (`cinsnowfilters` or
`pulse_compress_image`). -/
theorem gated_prompt_correct (ext : Externals) (ev : Ev) (pc : Char)
    (s : Store) (pre : List Char) (c : Char) (rest : List Char)
    (hpre : ∀ x ∈ pre, x ≠ 'y' ∧ x ≠ 'n') (hc : c = 'y' ∨ c = 'n') :
    run_gated ext ev pc (pre ++ c :: rest) s =
      some (c, if c = 'y' then [ev] else [],
            if c = 'y' then ext ev s else s, rest) := by
  unfold run_gated
  rw [scan_yn_first pc pre c rest hpre hc]
  by_cases hy : c = 'y' <;> simp [hy]

theorem gated_prompt_correct_witness :
    run_gated extW Ev.cinsnowfilters pc0 (['x', 'z'] ++ 'y' :: ['a']) [header]
      = some ('y', [Ev.cinsnowfilters], extW Ev.cinsnowfilters [header], ['a']) := by
  rw [gated_prompt_correct extW Ev.cinsnowfilters pc0 [header] ['x', 'z'] 'y'
    ['a'] (by decide) (Or.inl rfl)]
  simp

/-- C3: a mode character other than 's' and 'p' terminates the run with no
stage invoked: empty trace (so neither `build_metadata` nor `write_data`
ran), store still exactly the header (named "metadata"), nothing written. -/
theorem unknown_mode_aborts (ext : Externals) (readOk : Bool) (c : Char)
    (hs : c ≠ 's') (hp : c ≠ 'p') (rest : List Char) :
    runMain ext readOk (c :: rest) = some ⟨[], [header], false⟩ ∧
    header.name = "metadata" := by
  refine ⟨?_, rfl⟩
  unfold runMain
  simp [hs, hp]

theorem unknown_mode_aborts_witness :
    runMain extW true ['q'] = some ⟨[], [header], false⟩ :=
  (unknown_mode_aborts extW true 'q' (by decide) (by decide) []).1

/-- C8: in mode 'p', when `read_radar_file` reports failure the run prints
a diagnostic and exits at once: the reader is the only collaborator that
was invoked, `process_data`, `build_metadata` and `write_data` never run,
nothing is written, and the store is still header-only. -/
theorem read_failure_aborts (ext : Externals) (input tok rest : List Char)
    (h : read_token input = some (tok, rest)) :
    runMain ext false ('p' :: input) =
      some ⟨[Ev.read_radar_file], [header], false⟩ := by
  unfold runMain
  simp [h]

theorem read_failure_aborts_witness :
    runMain extW false ['p', 'f'] =
      some ⟨[Ev.read_radar_file], [header], false⟩ :=
  read_failure_aborts extW ['f'] ['f'] [] (by decide)

/-- C9: the claim fails at the yes/no prompts.  The loops ignore `scanf`'s
EOF return: with `pc` still 0 the denoise prompt never exits on an
exhausted input stream (`none` = the loop spins forever instead of
aborting), and at the image pulse-compression prompt the loop exits at
once on the stale answer left in `pc` by the first prompt, so mode 's'
with input ending right after a 'y' answer does not abort — it runs
`pulse_compress_image` off the stale 'y', finishes the pipeline and writes
the output file. -/
theorem yn_prompt_eof_no_abort :
    scan_yn pc0 [] = none ∧
    runMain extW true ['s', 'y'] = some
      ⟨[Ev.chirp_generator, Ev.chirp_matched_generator,
        Ev.fft_waveform "chirp", Ev.fft_waveform "match",
        Ev.pulse_compress_signal, Ev.calculate_compressed_pulse_resolution,
        Ev.insert_waveform_in_scene, Ev.radar_imager,
        Ev.cinsnowfilters, Ev.pulse_compress_image, Ev.gbp, Ev.gbp_fft,
        Ev.build_metadata_call, Ev.write_data],
       [{ name := "metadata", rows := 0, cols := 0, data := some 4 },
        chirpNode, matchNode,
        { name := "chirp_fft", rows := 4, cols := 1, data := some 4 },
        { name := "match_fft", rows := 4, cols := 1, data := some 4 }],
       true⟩ := by
  exact ⟨by decide, by decide⟩

/-- C4: every run that reaches the end of post-processing calls
`build_metadata`, which attaches to the header a buffer with exactly one
slot per artifact after the header at that point, and then `write_data`
runs exactly once, after `build_metadata`, as the final action.  The
hypothesis on `ext` records that the external stages work on the chain
hanging off `main`'s header pointer and cannot leave it empty. -/
theorem finalize_metadata_then_persist (ext : Externals) (readOk : Bool)
    (input : List Char) (o : Outcome)
    (hext : ∀ e s, s ≠ [] → ext e s ≠ [])
    (h : runMain ext readOk input = some o) (hw : o.wrote = true) :
    o.trace.count Ev.write_data = 1 ∧
    (∃ t, o.trace = t ++ [Ev.build_metadata_call, Ev.write_data]) ∧
    ∃ hd tl, o.store = hd :: tl ∧ hd.data = some tl.length := by
  unfold runMain at h
  simp only [] at h
  split at h
  · simp only [Option.some.injEq] at h
    subst h
    simp at hw
  next mode rest =>
    split at h
    · split at h
      · simp only [Option.some.injEq] at h
        subst h
        simp at hw
      next tok rest2 heqtok =>
        split at h
        · split at h
          · exact Option.noConfusion h
          next t s2 r heqpd =>
            have inv := process_data_inv ext hext _ _ _ _ _ heqpd
              (hext _ _ (by simp))
            simp only [Option.some.injEq] at h
            subst h
            exact finalize_inv _ _ (by simp [inv.2.2]) inv.1
        · simp only [Option.some.injEq] at h
          subst h
          simp at hw
    · split at h
      · split at h
        · exact Option.noConfusion h
        next tSim s1 heqsim =>
          split at h
          · exact Option.noConfusion h
          next t s2 r heqpd =>
            have inv1 := simulate_inv ext hext _ _ _ heqsim (by simp)
            have inv2 := process_data_inv ext hext _ _ _ _ _ heqpd inv1.1
            simp only [Option.some.injEq] at h
            subst h
            refine finalize_inv _ _ ?_ inv2.1
            rw [inv1.2]
            simp [inv2.2.2]
            decide
      · simp only [Option.some.injEq] at h
        subst h
        simp at hw

theorem finalize_metadata_then_persist_witness :
    outcomeSYN.trace.count Ev.write_data = 1 ∧
    (∃ t, outcomeSYN.trace = t ++ [Ev.build_metadata_call, Ev.write_data]) ∧
    ∃ hd tl, outcomeSYN.store = hd :: tl ∧ hd.data = some tl.length :=
  finalize_metadata_then_persist extW true ['s', 'y', 'n'] outcomeSYN
    extW_ne_nil (by decide) rfl

/-- C6: a simulate run invokes the external stages exactly in the order
chirp generation, matched-chirp generation, FFT of "chirp", FFT of
"match", signal pulse compression, the compressed-pulse resolution report,
scene insertion, radar imaging, then the two operator-gated stages, and
finally the mandatory `gbp` and `gbp_fft`, which run whatever the toggle
answers `d` and `q` were.  The two `get_matrix` hypotheses record that the
external generators published the "chirp" and "match" artifacts. -/
theorem simulate_run_stage_order (ext : Externals) (mc mm : matrix)
    (h1 : get_matrix (ext Ev.chirp_matched_generator
      (ext Ev.chirp_generator [header])) "chirp" = some mc)
    (h2 : get_matrix (ext Ev.chirp_matched_generator
      (ext Ev.chirp_generator [header])) "match" = some mm)
    (i1 i2 r : List Char) (d q : Char)
    (hd : scan_yn pc0 i1 = some (d, i2)) (hq : scan_yn d i2 = some (q, r)) :
    ∃ o, runMain ext true ('s' :: i1) = some o ∧
      o.trace = [Ev.chirp_generator, Ev.chirp_matched_generator,
                 Ev.fft_waveform "chirp", Ev.fft_waveform "match",
                 Ev.pulse_compress_signal,
                 Ev.calculate_compressed_pulse_resolution,
                 Ev.insert_waveform_in_scene, Ev.radar_imager]
        ++ (if d = 'y' then [Ev.cinsnowfilters] else [])
        ++ (if q = 'y' then [Ev.pulse_compress_image] else [])
        ++ [Ev.gbp, Ev.gbp_fft, Ev.build_metadata_call, Ev.write_data] := by
  refine ⟨_, runMain_s_eq ext true i1 _ _ _ _ r
    (simulate_eq ext [header] mc mm h1 h2)
    (process_data_eq ext _ i1 i2 r d q hd hq), ?_⟩
  simp [finalize, simulateTrace, List.append_assoc]

theorem simulate_run_stage_order_witness :
    ∃ o, runMain extW true ('s' :: ['y', 'n']) = some o ∧
      o.trace = [Ev.chirp_generator, Ev.chirp_matched_generator,
                 Ev.fft_waveform "chirp", Ev.fft_waveform "match",
                 Ev.pulse_compress_signal,
                 Ev.calculate_compressed_pulse_resolution,
                 Ev.insert_waveform_in_scene, Ev.radar_imager]
        ++ (if 'y' = 'y' then [Ev.cinsnowfilters] else [])
        ++ (if 'n' = 'y' then [Ev.pulse_compress_image] else [])
        ++ [Ev.gbp, Ev.gbp_fft, Ev.build_metadata_call, Ev.write_data] :=
  simulate_run_stage_order extW chirpNode matchNode (by decide) (by decide)
    ['y', 'n'] ['n'] [] 'y' 'n' (by decide) (by decide)

/-- C7: with R the row count of the "chirp" artifact, the two FFT nodes
`simulate` creates each hold R elements: a buffer of R complex samples and
recorded dimensions multiplying to R.  The waveform shape of the external
generators is modelled from the spec (§4.2): "chirp" is a length-R
waveform, i.e. a single-column matrix of R rows, and "match" is its
matched filter of the same length. -/
theorem fft_nodes_have_chirp_length (mc mm : matrix) (s : Store)
    (hs : s ≠ [])
    (hf1 : ∀ m ∈ s, m.name ≠ "chirp_fft")
    (hf2 : ∀ m ∈ s, m.name ≠ "match_fft")
    (hcols : mc.cols = 1) (hlen : mm.rows = mc.rows) :
    get_matrix (simulate_ffts mc mm s) "chirp_fft"
        = some (chirp_fft_init mc zeroNode) ∧
    get_matrix (simulate_ffts mc mm s) "match_fft"
        = some (match_fft_init mc mm zeroNode) ∧
    (chirp_fft_init mc zeroNode).data = some mc.rows ∧
    (chirp_fft_init mc zeroNode).rows * (chirp_fft_init mc zeroNode).cols
        = mc.rows ∧
    (match_fft_init mc mm zeroNode).data = some mc.rows ∧
    (match_fft_init mc mm zeroNode).rows * (match_fft_init mc mm zeroNode).cols
        = mc.rows := by
  have he := simulate_ffts_eq mc mm s hs
  refine ⟨?_, ?_, rfl, ?_, ?_, ?_⟩
  · rw [he]
    exact get_matrix_first s _ [match_fft_init mc mm zeroNode] _ hf1 rfl
  · rw [he, show s ++ [chirp_fft_init mc zeroNode, match_fft_init mc mm zeroNode]
        = (s ++ [chirp_fft_init mc zeroNode]) ++ match_fft_init mc mm zeroNode :: []
      by simp]
    refine get_matrix_first _ _ [] _ ?_ rfl
    intro x hx
    rcases List.mem_append.mp hx with hx | hx
    · exact hf2 x hx
    · simp at hx
      subst hx
      exact (by decide : ("chirp_fft" : String) ≠ "match_fft")
  · show mc.rows * mc.cols = mc.rows
    rw [hcols, Nat.mul_one]
  · show (some mm.rows : Option Nat) = some mc.rows
    rw [hlen]
  · show mc.rows * mc.cols = mc.rows
    rw [hcols, Nat.mul_one]

theorem fft_nodes_have_chirp_length_witness :
    get_matrix (simulate_ffts chirpNode matchNode [header, chirpNode, matchNode])
      "chirp_fft" = some (chirp_fft_init chirpNode zeroNode) ∧
    get_matrix (simulate_ffts chirpNode matchNode [header, chirpNode, matchNode])
      "match_fft" = some (match_fft_init chirpNode matchNode zeroNode) :=
  have h := fft_nodes_have_chirp_length chirpNode matchNode
    [header, chirpNode, matchNode] (by decide) (by decide) (by decide) rfl rfl
  ⟨h.1, h.2.1⟩

end SarSim
